import Mathlib

/-!
Verification of `scripts/derive_task_completions.py`.

The script reconstructs `economic/task_completions.jsonl` from three JSONL
sources (`work/tasks.jsonl`, `economic/token_costs.jsonl`,
`economic/balance.jsonl`).  We embed the parsed-record level of the script:
JSON scalar values become `JVal`, a parsed JSONL file becomes
`Option (List Rec)` (`none` models an absent file), Python dictionaries keyed
by task id become association lists built with overwrite-in-place semantics
(matching CPython dict insertion-order behaviour), and `datetime.now()`
becomes an explicit `now : String` parameter.  Python floats are modelled as
rationals.  The uncaught exceptions that `float(...)` can raise in
`derive_record` are modelled with `Except String`.
-/

/-- A JSON scalar value as produced by `json.loads` for the fields this script
reads.  (The script never inspects nested arrays/objects of these fields.) -/
inductive JVal where
  | null : JVal
  | bool (b : Bool) : JVal
  | num (q : ℚ) : JVal
  | str (s : String) : JVal
deriving DecidableEq

/-- Python truthiness (`if tid:`, `x or y`) for the modelled values. -/
def truthy : JVal → Bool
  | .null => false
  | .bool b => b
  | .num q => q != 0
  | .str s => s != ""

/-- A parsed JSONL record: a JSON object, as an association list. -/
abbrev Rec := List (String × JVal)

/-- `rec.get(k)`: `none` when the key is absent.  JSON objects with duplicate
keys keep the last occurrence, as `json.loads` does. -/
def rget (r : Rec) (k : String) : Option JVal :=
  ((r.filter (fun p => p.1 == k)).getLast?).map (fun p => p.2)

/-- `rec.get(k)` with Python's `None` default collapsed into `JVal.null`
(Python returns the value `None` for an absent key). -/
def jget (r : Rec) (k : String) : JVal := (rget r k).getD .null

/-- An in-memory index `{task_id: record}`.  Keys are `JVal` because the
script uses the raw `task_id` value as the dictionary key. -/
abbrev Index := List (JVal × Rec)

/-- `d[k] = v` on a Python dict: overwrites in place, preserving the position
of the first insertion (CPython dict semantics), else appends. -/
def upsert : Index → JVal → Rec → Index
  | [], k, v => [(k, v)]
  | (k', v') :: rest, k, v =>
    if k' = k then (k', v) :: rest else (k', v') :: upsert rest k v

/-- `d.get(k)` on the index. -/
def lookup_idx : Index → JVal → Option Rec
  | [], _ => none
  | (k', v) :: rest, k => if k' = k then some v else lookup_idx rest k

/-- `load_tasks` body: fold of `by_task[tid] = rec` over the records, guarded
by `if tid:` (truthiness). -/
def load_tasks_from (recs : List Rec) : Index :=
  recs.foldl (fun m rec =>
    let tid := jget rec "task_id"
    if truthy tid then upsert m tid rec else m) []

/-- `load_tasks`: absent `work/tasks.jsonl` yields an empty index. -/
def load_tasks (file : Option (List Rec)) : Index :=
  match file with
  | none => []
  | some recs => load_tasks_from recs

/-- `load_token_costs` body: split the stream into (cost, income) indexes.
Records with falsy `task_id` are skipped; `type == "work_income"` goes to the
income index; otherwise records carrying both `timestamp_start` and
`timestamp_end` keys go to the cost index; the rest are dropped. -/
def load_token_costs_from (recs : List Rec) : Index × Index :=
  recs.foldl (fun ci rec =>
    let tid := jget rec "task_id"
    if !truthy tid then ci
    else if jget rec "type" = .str "work_income" then (ci.1, upsert ci.2 tid rec)
    else if (rget rec "timestamp_start").isSome && (rget rec "timestamp_end").isSome then
      (upsert ci.1 tid rec, ci.2)
    else ci) ([], [])

/-- `load_token_costs`: absent file yields two empty indexes. -/
def load_token_costs (file : Option (List Rec)) : Index × Index :=
  match file with
  | none => ([], [])
  | some recs => load_token_costs_from recs

/-- `load_balance` body: keyed by truthy `task_id`, excluding records whose
`date` equals the sentinel string "initialization". -/
def load_balance_from (recs : List Rec) : Index :=
  recs.foldl (fun m rec =>
    let tid := jget rec "task_id"
    if truthy tid && !(jget rec "date" = .str "initialization") then upsert m tid rec
    else m) []

/-- `load_balance`: absent file yields an empty index. -/
def load_balance (file : Option (List Rec)) : Index :=
  match file with
  | none => []
  | some recs => load_balance_from recs

/-- Numeric value of a decimal digit character. -/
def dval (c : Char) : ℕ := c.toNat - 48

/-- Two-digit decimal value. -/
def dd (a b : Char) : ℕ := 10 * dval a + dval b

/-- Gregorian leap year, as in CPython `datetime`. -/
def is_leap (y : ℕ) : Bool := y % 4 == 0 && (y % 100 != 0 || y % 400 == 0)

/-- Days in a month, as in CPython `datetime`. -/
def days_in_month (y m : ℕ) : ℕ :=
  if m = 2 then (if is_leap y then 29 else 28)
  else if m = 4 ∨ m = 6 ∨ m = 9 ∨ m = 11 then 30
  else 31

/-- Cumulative days before the first of month `m` (CPython
`_days_before_month`). -/
def days_before_month (y m : ℕ) : ℕ :=
  [0, 0, 31, 59, 90, 120, 151, 181, 212, 243, 273, 304, 334].getD m 0 +
    (if 2 < m && is_leap y then 1 else 0)

/-- Days before January 1 of year `y` (CPython `_days_before_year`). -/
def days_before_year (y : ℕ) : ℕ :=
  365 * (y - 1) + (y - 1) / 4 + (y - 1) / 400 - (y - 1) / 100

/-- Proleptic Gregorian ordinal of a date (CPython `_ymd2ord`). -/
def to_ordinal (y m d : ℕ) : ℕ := days_before_year y + days_before_month y m + d

/-- `datetime.fromisoformat` on the canonical 19-character timestamp form
`YYYY-MM-DD{T or space}HH:MM:SS` that the logs contain, returning seconds on
a fixed linear time scale.  Other ISO variants are out of scope of the
verified properties: every comparison below applies the same parser to both
sides, and all concrete inputs use the canonical form. -/
def parse_iso (s : String) : Option ℤ :=
  match s.toList with
  | [y1, y2, y3, y4, h1, mo1, mo2, h2, da1, da2, sep, hh1, hh2, c1, mi1, mi2, c2, ss1, ss2] =>
    if y1.isDigit && y2.isDigit && y3.isDigit && y4.isDigit &&
        mo1.isDigit && mo2.isDigit && da1.isDigit && da2.isDigit &&
        hh1.isDigit && hh2.isDigit && mi1.isDigit && mi2.isDigit &&
        ss1.isDigit && ss2.isDigit &&
        h1 == '-' && h2 == '-' && (sep == 'T' || sep == ' ') &&
        c1 == ':' && c2 == ':' then
      let y := 100 * dd y1 y2 + dd y3 y4
      let mo := dd mo1 mo2
      let da := dd da1 da2
      let hh := dd hh1 hh2
      let mi := dd mi1 mi2
      let ss := dd ss1 ss2
      if 1 ≤ y && 1 ≤ mo && mo ≤ 12 && 1 ≤ da && da ≤ days_in_month y mo &&
          hh ≤ 23 && mi ≤ 59 && ss ≤ 59 then
        some (((to_ordinal y mo da : ℤ) - 1) * 86400 + hh * 3600 + mi * 60 + ss)
      else none
    else none
  | _ => none

/-- `datetime.fromisoformat` applied to a field value: a non-string argument
raises `TypeError`, which the caller catches — modelled as `none`. -/
def parse_ts (v : JVal) : Option ℤ :=
  match v with
  | .str s => parse_iso s
  | _ => none

/-- Round-half-to-even to an integer, the rounding Python `round` uses. -/
def round_half_even (q : ℚ) : ℤ :=
  if q - ⌊q⌋ < 1 / 2 then ⌊q⌋
  else if (1 : ℚ) / 2 < q - ⌊q⌋ then ⌊q⌋ + 1
  else if ⌊q⌋ % 2 = 0 then ⌊q⌋ else ⌊q⌋ + 1

/-- Python `round(q, n)` on the rational model of floats. -/
def py_round (n : ℕ) (q : ℚ) : ℚ := (round_half_even (q * 10 ^ n) : ℚ) / 10 ^ n

/-- Value of a list of decimal digit characters. -/
def digits_val (cs : List Char) : ℕ := cs.foldl (fun a c => 10 * a + dval c) 0

/-- Unsigned decimal literal `digits[.digits]`, the float-literal fragment the
logs contain (exponents, `inf`, `nan` and underscores are out of scope). -/
def parse_dec (cs : List Char) : Option ℚ :=
  let ip := cs.takeWhile Char.isDigit
  let rest := cs.drop ip.length
  match rest with
  | [] => if ip.isEmpty then none else some (digits_val ip)
  | c :: fp =>
    if c == '.' && fp.all Char.isDigit && !(ip.isEmpty && fp.isEmpty) then
      some ((digits_val ip : ℚ) + (digits_val fp : ℚ) / 10 ^ fp.length)
    else none

/-- Python `float(s)` on a string (sign + decimal literal). -/
def py_float_str (s : String) : Option ℚ :=
  match s.toList with
  | '-' :: cs => (parse_dec cs).map (fun q => -q)
  | '+' :: cs => parse_dec cs
  | cs => parse_dec cs

/-- Python `float(v)` on a field value; `none` models a raised
`TypeError`/`ValueError` (e.g. `float(None)` or `float("abc")`). -/
def py_float : JVal → Option ℚ
  | .null => none
  | .bool b => some (if b then 1 else 0)
  | .num q => some q
  | .str s => py_float_str s

/-- Source 2 of `compute_wall_clock`: `balance.jsonl`'s
`task_completion_time_seconds`, guarded by `is not None`; a failed `float`
conversion is caught and falls to the final `return None`. -/
def balance_fallback (balance_rec : Option Rec) : Option ℚ :=
  match balance_rec with
  | some b =>
    match rget b "task_completion_time_seconds" with
    | some v => if v = .null then none else (py_float v).map (py_round 2)
    | none => none
  | none => none

/-- `compute_wall_clock`: cost-record timestamp difference when both fields
are truthy, parse, and the difference is non-negative; otherwise fall through
to the balance fallback. -/
def compute_wall_clock (task_id : JVal) (cost_rec balance_rec : Option Rec) : Option ℚ :=
  match cost_rec with
  | some c =>
    if truthy (jget c "timestamp_start") && truthy (jget c "timestamp_end") then
      match parse_ts (jget c "timestamp_start"), parse_ts (jget c "timestamp_end") with
      | some a, some b =>
        if 0 ≤ b - a then some (py_round 2 ((b - a : ℤ) : ℚ))
        else balance_fallback balance_rec
      | _, _ => balance_fallback balance_rec
    else balance_fallback balance_rec
  | none => balance_fallback balance_rec

/-- Python `x or y` on field values. -/
def py_or (a b : JVal) : JVal := if truthy a then a else b

/-- The `date` chain of `derive_record`:
`task.get("date") or cost.get("date") or income.get("date") or ""`. -/
def date_of (task_rec : Rec) (cost_rec income_rec : Option Rec) : JVal :=
  py_or (jget task_rec "date")
    (py_or (match cost_rec with | some c => jget c "date" | none => .null)
      (py_or (match income_rec with | some i => jget i "date" | none => .null)
        (.str "")))

/-- `float(income_rec.get(key, 0.0)) if income_rec else 0.0`; `none` models an
uncaught exception from `float`. -/
def income_float (income_rec : Option Rec) (key : String) : Option ℚ :=
  match income_rec with
  | none => some 0
  | some i => py_float ((rget i key).getD (.num 0))

/-- Second half of the timestamp chain: income record's `timestamp` if truthy,
else `datetime.now().isoformat()`. -/
def ts_income (income_rec : Option Rec) (now : String) : JVal :=
  match income_rec with
  | some i => if truthy (jget i "timestamp") then jget i "timestamp" else .str now
  | none => .str now

/-- The timestamp chain of `derive_record`: cost record's `timestamp_end` if
truthy, else income `timestamp`, else current time. -/
def ts_of (cost_rec income_rec : Option Rec) (now : String) : JVal :=
  match cost_rec with
  | some c =>
    if truthy (jget c "timestamp_end") then jget c "timestamp_end"
    else ts_income income_rec now
  | none => ts_income income_rec now

/-- One derived completion record (the dict built by `derive_record`;
`_derived` is modelled as `derived_flag`). -/
structure OutRec where
  task_id : JVal
  date : JVal
  attempt : ℕ
  work_submitted : Bool
  evaluation_score : ℚ
  money_earned : ℚ
  wall_clock_seconds : Option ℚ
  timestamp : JVal
  derived_flag : Bool
deriving DecidableEq

/-- `derive_record`.  The two `float(...)` calls are the only statements in it
that can raise; a raise aborts the whole run (`Except.error`). -/
def derive_record (task_id : JVal) (task_rec : Rec)
    (cost_rec income_rec balance_rec : Option Rec) (now : String) : Except String OutRec :=
  match income_float income_rec "evaluation_score", income_float income_rec "actual_payment" with
  | some sc, some mo =>
    .ok { task_id := task_id,
          date := date_of task_rec cost_rec income_rec,
          attempt := 1,
          work_submitted := income_rec.isSome,
          evaluation_score := py_round 4 sc,
          money_earned := py_round 4 mo,
          wall_clock_seconds := compute_wall_clock task_id cost_rec balance_rec,
          timestamp := ts_of cost_rec income_rec now,
          derived_flag := true }
  | _, _ => .error "float() raised on an income record field"

/-- The per-task loop of `derive_task_completions`: iterate the task index in
order, skip tasks without an income record, derive the rest. -/
def derive_loop (cost income bal : Index) (now : String) : Index → Except String (List OutRec)
  | [] => .ok []
  | (tid, trec) :: rest =>
    match lookup_idx income tid with
    | none => derive_loop cost income bal now rest
    | some irec =>
      match derive_record tid trec (lookup_idx cost tid) (some irec) (lookup_idx bal tid) now with
      | .error e => .error e
      | .ok r =>
        match derive_loop cost income bal now rest with
        | .error e => .error e
        | .ok rs => .ok (r :: rs)

/-- Lexicographic comparison of character lists by code point, Python's
string `<=`. -/
def chars_le : List Char → List Char → Bool
  | [], _ => true
  | _ :: _, [] => false
  | a :: as, b :: bs => if a = b then chars_le as bs else decide (a < b)

/-- Python string `<=` (code-point lexicographic). -/
def str_le (s t : String) : Bool := chars_le s.toList t.toList

/-- Python's numeric value of a bool (`True == 1`, `False == 0`). -/
def bool_val (b : Bool) : ℚ := if b then 1 else 0

/-- Whether Python defines `<` between two date keys: strings compare with
strings; numbers and bools compare numerically; `None` compares with nothing
(not even itself) and any other mix raises `TypeError`. -/
def key_comparable (a b : JVal) : Bool :=
  match a, b with
  | .str _, .str _ => true
  | .num _, .num _ => true
  | .num _, .bool _ => true
  | .bool _, .num _ => true
  | .bool _, .bool _ => true
  | _, _ => false

/-- Whether `derived.sort(key=lambda r: r["date"])` runs without raising:
a correct comparison sort must connect all elements by direct comparisons, so
as soon as two keys of the list are not mutually orderable some comparison
raises an uncaught `TypeError`; with all pairs orderable no comparison can
raise.  (A single element is never compared.) -/
def keys_comparable : List OutRec → Bool
  | [] => true
  | r :: rs => rs.all (fun x => key_comparable r.date x.date) && keys_comparable rs

/-- Rank used only to keep the order total on pairs Python cannot compare.
Such pairs never reach the sort: `derive_task_completions` aborts first via
`keys_comparable`, exactly where the program raises `TypeError` — so this
branch is dead on every run the pipeline completes. -/
def jrank : JVal → ℕ
  | .null => 0
  | .bool _ => 1
  | .num _ => 2
  | .str _ => 3

/-- The sort-key order on `date` values where Python defines it: string
comparison on strings, numeric comparison on numbers and bools. -/
def key_le (a b : JVal) : Bool :=
  match a, b with
  | .str s, .str t => str_le s t
  | .num p, .num q => decide (p ≤ q)
  | .num p, .bool q => decide (p ≤ bool_val q)
  | .bool p, .num q => decide (bool_val p ≤ q)
  | .bool p, .bool q => decide (bool_val p ≤ bool_val q)
  | .null, .null => true
  | x, y => decide (jrank x ≤ jrank y)

/-- Record order for `derived.sort(key=lambda r: r["date"])`. -/
def rec_le (a b : OutRec) : Prop := key_le a.date b.date = true

instance rec_le_dec : DecidableRel rec_le :=
  fun a b => instDecidableEqBool (key_le a.date b.date) true

/-- `list.sort` is a stable sort by the key; any stable sort computes the same
result, so we model it with stable insertion sort. -/
def sort_by_date (l : List OutRec) : List OutRec := List.insertionSort rec_le l

/-- The filesystem fragment the script touches: a set of directories and a
mapping from paths to file contents. -/
structure FS where
  dirs : List String
  files : List (String × String)
deriving DecidableEq

/-- Overwriting file write. -/
def put_file : List (String × String) → String → String → List (String × String)
  | [], p, c => [(p, c)]
  | (p', c') :: rest, p, c =>
    if p' = p then (p, c) :: rest else (p', c') :: put_file rest p c

/-- File content lookup. -/
def get_file : List (String × String) → String → Option String
  | [], _ => none
  | (p', c) :: rest, p => if p' = p then some c else get_file rest p

/-- Output path relative to the agent directory. -/
def out_path : String := "economic/task_completions.jsonl"

/-- Output directory relative to the agent directory. -/
def out_dir : String := "economic"

/-- Escape a character for a JSON string literal. -/
def esc_char (c : Char) : String :=
  if c == '"' then "\\\"" else if c == '\\' then "\\\\" else String.singleton c

/-- Escape a JSON string body. -/
def esc (s : String) : String := String.join (s.toList.map esc_char)

/-- Decimal digits of the fractional part (fuelled; every rounded value in a
record has at most 4 decimal places). -/
def render_frac : ℕ → ℚ → String
  | 0, _ => ""
  | n + 1, q =>
    if q = 0 then ""
    else toString ⌊q * 10⌋ ++ render_frac n (q * 10 - ⌊q * 10⌋)

/-- `repr` of a Python float with a finite decimal expansion, as used by
`json.dumps` (integral floats render with a trailing `.0`). -/
def render_float (q : ℚ) : String :=
  (if q < 0 then "-" else "") ++
    (if |q| - ⌊|q|⌋ = 0 then toString ⌊|q|⌋ ++ ".0"
     else toString ⌊|q|⌋ ++ "." ++ render_frac 20 (|q| - ⌊|q|⌋))

/-- `json.dumps` of a scalar value. -/
def render_jval : JVal → String
  | .null => "null"
  | .bool b => if b then "true" else "false"
  | .num q => if q.den = 1 then toString q.num else render_float q
  | .str s => "\"" ++ esc s ++ "\""

/-- `json.dumps` of the nullable wall-clock field. -/
def render_opt_float : Option ℚ → String
  | none => "null"
  | some q => render_float q

/-- `json.dumps(record)` with default separators and insertion-ordered keys. -/
def serialize_rec (r : OutRec) : String :=
  "\x7b\"task_id\": " ++ render_jval r.task_id ++
  ", \"date\": " ++ render_jval r.date ++
  ", \"attempt\": " ++ toString r.attempt ++
  ", \"work_submitted\": " ++ (if r.work_submitted then "true" else "false") ++
  ", \"evaluation_score\": " ++ render_float r.evaluation_score ++
  ", \"money_earned\": " ++ render_float r.money_earned ++
  ", \"wall_clock_seconds\": " ++ render_opt_float r.wall_clock_seconds ++
  ", \"timestamp\": " ++ render_jval r.timestamp ++
  ", \"_derived\": " ++ (if r.derived_flag then "true" else "false") ++ "\x7d"

/-- The written file body: one serialized record per line. -/
def serialize_lines (recs : List OutRec) : String :=
  String.join (recs.map (fun r => serialize_rec r ++ "\n"))

/-- The write step: `os.makedirs(..., exist_ok=True)` then an overwriting
`open(out_path, "w")`. -/
def write_output (fs : FS) (recs : List OutRec) : FS :=
  { dirs := if out_dir ∈ fs.dirs then fs.dirs else out_dir :: fs.dirs,
    files := put_file fs.files out_path (serialize_lines recs) }

/-- The unsorted derived set: sources loaded, loop run over the task index. -/
def derive_unsorted (tasks_file token_file balance_file : Option (List Rec))
    (now : String) : Except String (List OutRec) :=
  derive_loop (load_token_costs token_file).1 (load_token_costs token_file).2
    (load_balance balance_file) now (load_tasks tasks_file)

/-- `derive_task_completions`: early return on an empty task index (no write),
else derive, sort, and (unless `dry_run`) write.  `derived.sort` raises an
uncaught `TypeError` — aborting before report and write — when the date keys
are not mutually orderable (`keys_comparable`). -/
def derive_task_completions (tasks_file token_file balance_file : Option (List Rec))
    (now : String) (dry_run : Bool) (fs : FS) : Except String (List OutRec × FS) :=
  if (load_tasks tasks_file).isEmpty then .ok ([], fs)
  else
    match derive_unsorted tasks_file token_file balance_file now with
    | .error e => .error e
    | .ok derived =>
      if keys_comparable derived then
        if dry_run then .ok (sort_by_date derived, fs)
        else .ok (sort_by_date derived, write_output fs (sort_by_date derived))
      else .error "TypeError: mixed date types in sort"

/-- First truthy candidate, else the empty string: the short-circuiting
"first non-null candidate wins" chain described by the specification (the
specification's §9 design note), amended to Python truthiness. -/
def first_truthy : List JVal → JVal
  | [] => .str ""
  | v :: vs => if truthy v then v else first_truthy vs

/-- Specification-side restatement of the `date` chain (amended): the first
truthy candidate among task date, cost date, income date, else `""`. -/
def date_spec (task_rec : Rec) (cost_rec income_rec : Option Rec) : JVal :=
  first_truthy [jget task_rec "date",
    (match cost_rec with | some c => jget c "date" | none => .null),
    (match income_rec with | some i => jget i "date" | none => .null)]

/-- Specification-side candidate (a) of the wall-clock fallback: cost-record
timestamp difference in seconds, rounded to 2 places, accepted only when both
timestamp fields are truthy, both parse, and the difference is non-negative. -/
def cost_candidate (cost_rec : Option Rec) : Option ℚ :=
  match cost_rec with
  | some c =>
    if truthy (jget c "timestamp_start") && truthy (jget c "timestamp_end") then
      match parse_ts (jget c "timestamp_start"), parse_ts (jget c "timestamp_end") with
      | some a, some b => if 0 ≤ b - a then some (py_round 2 ((b - a : ℤ) : ℚ)) else none
      | _, _ => none
    else none
  | none => none

/-- Specification-side candidate (b) of the wall-clock fallback (amended): the
balance record's completion-time value rounded to 2 places whenever it is
present, non-null and converts to float — with no sign check. -/
def balance_candidate (balance_rec : Option Rec) : Option ℚ :=
  match balance_rec with
  | some b =>
    match rget b "task_completion_time_seconds" with
    | some v => if v = .null then none else (py_float v).map (py_round 2)
    | none => none
  | none => none

/-- Specification-side restatement of `compute_wall_clock` (amended): first
successfully computed candidate in the ordered fallback, else null. -/
def wall_clock_spec (cost_rec balance_rec : Option Rec) : Option ℚ :=
  match cost_candidate cost_rec with
  | some q => some q
  | none => balance_candidate balance_rec

/-- Whether the cost record contributes a truthy `timestamp_end` to the
timestamp chain (the condition under which `derive_record` never consults the
current time, given a truthy income timestamp as the alternative). -/
def cost_end_truthy (cost_rec : Option Rec) : Bool :=
  match cost_rec with
  | some c => truthy (jget c "timestamp_end")
  | none => false

/-- The date of a derived record as a string (the normal case; non-string
dates would make Python's sort comparison raise). -/
def date_str (r : OutRec) : String :=
  match r.date with
  | .str s => s
  | _ => ""

/-- Whether a record is retained by the task indexer under identifier `tid`:
truthy `task_id` equal to `tid`. -/
def is_task_for (tid : JVal) (r : Rec) : Bool :=
  truthy (jget r "task_id") && decide (jget r "task_id" = tid)

/-- Whether a record is retained by the income index under `tid`: truthy
matching `task_id` and `type == "work_income"`. -/
def is_income_for (tid : JVal) (r : Rec) : Bool :=
  truthy (jget r "task_id") && decide (jget r "task_id" = tid) &&
    decide (jget r "type" = JVal.str "work_income")

/-- Whether a record is retained by the cost index under `tid`: truthy
matching `task_id`, not a work-income record, and both timestamp keys
present. -/
def is_cost_for (tid : JVal) (r : Rec) : Bool :=
  truthy (jget r "task_id") && decide (jget r "task_id" = tid) &&
    !decide (jget r "type" = JVal.str "work_income") &&
    (rget r "timestamp_start").isSome && (rget r "timestamp_end").isSome

/-- Whether a record is retained by the balance index under `tid`: truthy
matching `task_id` and date not the "initialization" sentinel. -/
def is_balance_for (tid : JVal) (r : Rec) : Bool :=
  truthy (jget r "task_id") && decide (jget r "task_id" = tid) &&
    !decide (jget r "date" = JVal.str "initialization")

/-!
### Concrete fixtures used by witnesses and counterexamples
-/

/-- Task assignment fixture: task "A", dated 2024-01-02. -/
def task_A : Rec := [("task_id", .str "A"), ("date", .str "2024-01-02")]

/-- Task assignment fixture: task "B", dated 2024-01-01. -/
def task_B : Rec := [("task_id", .str "B"), ("date", .str "2024-01-01")]

/-- Task assignment fixture: task "C" (no income record anywhere). -/
def task_C : Rec := [("task_id", .str "C"), ("date", .str "2024-01-03")]

/-- Cost record fixture for task "A": a 5-minute execution window. -/
def cost_A : Rec := [("task_id", .str "A"),
  ("timestamp_start", .str "2024-01-02T10:00:00"),
  ("timestamp_end", .str "2024-01-02T10:05:00")]

/-- Income record fixture for task "A". -/
def income_A : Rec := [("task_id", .str "A"), ("type", .str "work_income"),
  ("evaluation_score", .num (4 / 5)), ("actual_payment", .num 5),
  ("timestamp", .str "2024-01-02T10:05:01"), ("date", .str "2024-01-02")]

/-- Income record fixture for task "B" (no cost record; balance fallback). -/
def income_B : Rec := [("task_id", .str "B"), ("type", .str "work_income"),
  ("evaluation_score", .num (1 / 2)), ("actual_payment", .num 3),
  ("timestamp", .str "2024-01-01T09:00:00")]

/-- Balance record fixture for task "B": 12-second completion time. -/
def balance_B : Rec := [("task_id", .str "B"), ("task_completion_time_seconds", .num 12)]

/-- Income record fixture for task "D", which has no task assignment. -/
def income_D : Rec := [("task_id", .str "D"), ("type", .str "work_income"),
  ("evaluation_score", .num 1), ("actual_payment", .num 2),
  ("timestamp", .str "2024-01-04T08:00:00")]

/-- Income record fixture with a present-but-null evaluation score:
`float(None)` raises `TypeError` in `derive_record`. -/
def income_bad : Rec := [("task_id", .str "A"), ("type", .str "work_income"),
  ("evaluation_score", JVal.null)]

/-- An earlier duplicate income record for task "T". -/
def income_T_old : Rec := [("task_id", .str "T"), ("type", .str "work_income"),
  ("evaluation_score", .num (1 / 4)), ("actual_payment", .num 1)]

/-- A later duplicate income record for task "T" with a different score. -/
def income_T_new : Rec := [("task_id", .str "T"), ("type", .str "work_income"),
  ("evaluation_score", .num (3 / 4)), ("actual_payment", .num 2),
  ("timestamp", .str "2024-01-01T00:00:10")]

/-- Task assignment fixture for task "T". -/
def task_T : Rec := [("task_id", .str "T"), ("date", .str "2024-01-01")]

/-- An empty filesystem. -/
def fs0 : FS := ⟨[], []⟩

/-- A filesystem carrying a stale output file from a previous run. -/
def fs_stale : FS := ⟨[], [(out_path, "stale")]⟩

/-- The main three-source fixture: tasks A, B, C. -/
def F1tasks : Option (List Rec) := some [task_A, task_B, task_C]

/-- Token-costs fixture: a cost record for A and income records for A, B. -/
def F1costs : Option (List Rec) := some [cost_A, income_A, income_B]

/-- Balance fixture: a completion time for B. -/
def F1bal : Option (List Rec) := some [balance_B]

/-- The derived record for task "A" under the main fixture. -/
def outrec_A : OutRec :=
  { task_id := .str "A", date := .str "2024-01-02", attempt := 1,
    work_submitted := true, evaluation_score := 4 / 5, money_earned := 5,
    wall_clock_seconds := some 300, timestamp := .str "2024-01-02T10:05:00",
    derived_flag := true }

/-- The derived record for task "B" under the main fixture. -/
def outrec_B : OutRec :=
  { task_id := .str "B", date := .str "2024-01-01", attempt := 1,
    work_submitted := true, evaluation_score := 1 / 2, money_earned := 3,
    wall_clock_seconds := some 12, timestamp := .str "2024-01-01T09:00:00",
    derived_flag := true }

/-- Task record with a present-but-empty date (truthiness counterexample). -/
def t_empty_date : Rec := [("task_id", .str "E"), ("date", .str "")]

/-- Cost record carrying a date, used as the fallback candidate. -/
def c_dated : Rec := [("task_id", .str "E"), ("date", .str "2024-05-05")]

/-- Balance record with a negative completion time. -/
def bal_neg : Rec := [("task_id", .str "N"), ("task_completion_time_seconds", .num (-5))]

/-- The derived record for task "A" when only `income_A` is available (no
cost record): the timestamp falls back to the income record's timestamp. -/
def outrec_A_nocost : OutRec :=
  { task_id := .str "A", date := .str "2024-01-02", attempt := 1,
    work_submitted := true, evaluation_score := 4 / 5, money_earned := 5,
    wall_clock_seconds := none, timestamp := .str "2024-01-02T10:05:01",
    derived_flag := true }

/-- Task assignment fixture with a numeric date (a data-quality case Python's
sort cannot order against string dates). -/
def task_numdate : Rec := [("task_id", .str "M"), ("date", .num 5)]

/-- Income record fixture for task "M". -/
def income_M : Rec := [("task_id", .str "M"), ("type", .str "work_income"),
  ("evaluation_score", .num 1), ("actual_payment", .num 1),
  ("timestamp", .str "2024-01-05T00:00:00")]

/-- The derived record for task "T" built from `task_T` and `income_T_new`. -/
def outrec_T : OutRec :=
  { task_id := .str "T", date := .str "2024-01-01", attempt := 1,
    work_submitted := true, evaluation_score := 3 / 4, money_earned := 2,
    wall_clock_seconds := none, timestamp := .str "2024-01-01T00:00:10",
    derived_flag := true }

/-!
### Helper lemmas

`Rat`'s arithmetic is `@[irreducible]` in Batteries; restoring default
reducibility lets concrete runs of the embedding be checked by `decide`.
-/

attribute [local semireducible] Rat.mul Rat.add Rat.sub Rat.inv

theorem lookup_upsert_self (m : Index) (k : JVal) (v : Rec) :
    lookup_idx (upsert m k v) k = some v := by
  induction m with
  | nil => simp [upsert, lookup_idx]
  | cons p rest ih =>
    by_cases h : p.1 = k
    · simp [upsert, lookup_idx, h]
    · simp [upsert, lookup_idx, h, ih]

theorem lookup_upsert_ne (m : Index) {k k2 : JVal} (v : Rec) (h : ¬ k = k2) :
    lookup_idx (upsert m k v) k2 = lookup_idx m k2 := by
  induction m with
  | nil => simp [upsert, lookup_idx, h]
  | cons p rest ih =>
    obtain ⟨pk, pv⟩ := p
    by_cases hk : pk = k
    · subst hk
      simp [upsert, lookup_idx, h]
    · have h2 : ¬ k2 = k := fun hh => h hh.symm
      by_cases hk2 : pk = k2
      · simp [upsert, lookup_idx, hk, hk2, h2]
      · simp [upsert, lookup_idx, hk, hk2, h2, ih]

theorem lookup_isSome_iff (m : Index) (k : JVal) :
    (lookup_idx m k).isSome = true ↔ ∃ p ∈ m, p.1 = k := by
  induction m with
  | nil => simp [lookup_idx]
  | cons p rest ih =>
    obtain ⟨pk, pv⟩ := p
    by_cases h : pk = k
    · subst h
      constructor
      · intro _
        exact ⟨(pk, pv), by simp, rfl⟩
      · intro _
        simp [lookup_idx]
    · simp only [lookup_idx, if_neg h]
      rw [ih]
      constructor
      · rintro ⟨q, hq, hq1⟩
        exact ⟨q, List.mem_cons_of_mem _ hq, hq1⟩
      · rintro ⟨⟨qk, qv⟩, hq, rfl⟩
        rcases List.mem_cons.mp hq with h1 | h2
        · injection h1 with ha _
          exact absurd ha.symm h
        · exact ⟨(qk, qv), h2, rfl⟩

theorem derive_record_ok_task_id {tid : JVal} {t : Rec} {c i b : Option Rec} {now : String}
    {r : OutRec} (h : derive_record tid t c i b now = .ok r) : r.task_id = tid := by
  unfold derive_record at h
  rcases hs : income_float i "evaluation_score" with _ | sc <;> rw [hs] at h
  · simp at h
  · rcases hm : income_float i "actual_payment" with _ | mo <;> rw [hm] at h
    · simp at h
    · simp only [Except.ok.injEq] at h
      rw [← h]

theorem derive_record_ok_score {tid : JVal} {t : Rec} {c i b : Option Rec} {now : String}
    {r : OutRec} {sc : ℚ} (h : derive_record tid t c i b now = .ok r)
    (hsc : income_float i "evaluation_score" = some sc) :
    r.evaluation_score = py_round 4 sc := by
  unfold derive_record at h
  rw [hsc] at h
  rcases hm : income_float i "actual_payment" with _ | mo <;> rw [hm] at h
  · simp at h
  · simp only [Except.ok.injEq] at h
    rw [← h]

theorem mem_ok_derive_loop {cost income bal : Index} {now : String} :
    ∀ {ts : Index} {out : List OutRec}, derive_loop cost income bal now ts = .ok out →
    ∀ tid, ((∃ r ∈ out, r.task_id = tid) ↔
      ((∃ p ∈ ts, p.1 = tid) ∧ (lookup_idx income tid).isSome = true)) := by
  intro ts
  induction ts with
  | nil =>
    intro out h tid
    simp only [derive_loop, Except.ok.injEq] at h
    simp [← h]
  | cons p rest ih =>
    intro out h tid
    obtain ⟨k, trec⟩ := p
    simp only [derive_loop] at h
    rcases hlk : lookup_idx income k with _ | irec <;> simp only [hlk] at h
    · rw [ih h tid]
      constructor
      · rintro ⟨⟨q, hq, hq1⟩, hs⟩
        exact ⟨⟨q, List.mem_cons_of_mem _ hq, hq1⟩, hs⟩
      · rintro ⟨⟨⟨qk, qv⟩, hq, rfl⟩, hs⟩
        rcases List.mem_cons.mp hq with h1 | h2
        · injection h1 with ha _
          rw [ha] at hs
          rw [hlk] at hs
          simp at hs
        · exact ⟨⟨(qk, qv), h2, rfl⟩, hs⟩
    · rcases hdr : derive_record k trec (lookup_idx cost k) (some irec) (lookup_idx bal k) now
          with e | r
      · simp only [hdr] at h
        exact absurd h (by simp)
      · simp only [hdr] at h
        rcases hrest : derive_loop cost income bal now rest with e2 | rs
        · simp only [hrest] at h
          exact absurd h (by simp)
        · simp only [hrest] at h
          obtain rfl : r :: rs = out := by simpa using h
          have hrk : r.task_id = k := derive_record_ok_task_id hdr
          by_cases htid : tid = k
          · subst htid
            refine iff_of_true ⟨r, by simp, hrk⟩ ⟨⟨(tid, trec), by simp, rfl⟩, ?_⟩
            rw [hlk]
            rfl
          · constructor
            · rintro ⟨r', hr', hrt⟩
              rcases List.mem_cons.mp hr' with rfl | hr2
              · rw [hrk] at hrt
                exact absurd hrt.symm htid
              · obtain ⟨⟨q, hq, hq1⟩, hs⟩ := (ih hrest tid).mp ⟨r', hr2, hrt⟩
                exact ⟨⟨q, List.mem_cons_of_mem _ hq, hq1⟩, hs⟩
            · rintro ⟨⟨⟨qk, qv⟩, hq, rfl⟩, hs⟩
              rcases List.mem_cons.mp hq with h1 | h2
              · injection h1 with ha _
                exact absurd ha htid
              · obtain ⟨r', hr', hrt⟩ := (ih hrest qk).mpr ⟨⟨(qk, qv), h2, rfl⟩, hs⟩
                exact ⟨r', List.mem_cons_of_mem _ hr', hrt⟩

theorem run_ok_shape {tf kf bf : Option (List Rec)} {now : String} {dr : Bool} {fs : FS}
    {out : List OutRec} {fs' : FS}
    (h : derive_task_completions tf kf bf now dr fs = .ok (out, fs')) :
    ∃ du, derive_unsorted tf kf bf now = .ok du ∧ out = sort_by_date du := by
  unfold derive_task_completions at h
  by_cases he : (load_tasks tf).isEmpty
  · rw [if_pos he] at h
    obtain ⟨rfl, _⟩ : [] = out ∧ fs = fs' := by simpa using h
    refine ⟨[], ?_, rfl⟩
    rw [derive_unsorted, List.isEmpty_iff.mp he]
    rfl
  · rw [if_neg he] at h
    rcases hu : derive_unsorted tf kf bf now with e | du <;> simp only [hu] at h
    · exact absurd h (by simp)
    · refine ⟨du, rfl, ?_⟩
      by_cases hcmp : keys_comparable du = true
      · rw [if_pos hcmp] at h
        rcases dr with _ | _
        · rw [if_neg (by simp)] at h
          exact (congrArg Prod.fst (Except.ok.inj h)).symm
        · rw [if_pos rfl] at h
          exact (congrArg Prod.fst (Except.ok.inj h)).symm
      · rw [if_neg hcmp] at h
        exact absurd h (by simp)

theorem mem_sort_by_date {a : OutRec} {l : List OutRec} : a ∈ sort_by_date l ↔ a ∈ l :=
  (List.perm_insertionSort rec_le l).mem_iff

theorem chars_le_refl : ∀ cs : List Char, chars_le cs cs = true
  | [] => rfl
  | c :: cs => by
    simp only [chars_le, if_pos rfl]
    exact chars_le_refl cs

theorem chars_le_total : ∀ as bs : List Char, chars_le as bs = true ∨ chars_le bs as = true
  | [], _ => Or.inl rfl
  | _ :: _, [] => Or.inr rfl
  | a :: as, b :: bs => by
    by_cases h : a = b
    · subst h
      simp only [chars_le, if_pos rfl]
      exact chars_le_total as bs
    · simp only [chars_le, if_neg h, if_neg (fun hh : b = a => h hh.symm)]
      rcases lt_trichotomy a b with hlt | heq | hgt
      · exact Or.inl (decide_eq_true hlt)
      · exact absurd heq h
      · exact Or.inr (decide_eq_true hgt)

theorem chars_le_trans : ∀ as bs cs : List Char,
    chars_le as bs = true → chars_le bs cs = true → chars_le as cs = true
  | [], _, _, _, _ => rfl
  | _ :: _, [], _, h1, _ => Bool.noConfusion h1
  | _ :: _, _ :: _, [], _, h2 => Bool.noConfusion h2
  | a :: as, b :: bs, c :: cs, h1, h2 => by
    simp only [chars_le] at h1 h2 ⊢
    by_cases hab : a = b <;> by_cases hbc : b = c
    · subst hab
      subst hbc
      rw [if_pos rfl] at h1 h2 ⊢
      exact chars_le_trans as bs cs h1 h2
    · subst hab
      rw [if_pos rfl] at h1
      rw [if_neg hbc] at h2 ⊢
      exact h2
    · subst hbc
      rw [if_neg hab] at h1 ⊢
      exact h1
    · rw [if_neg hab] at h1
      rw [if_neg hbc] at h2
      have h3 : a < c := lt_trans (of_decide_eq_true h1) (of_decide_eq_true h2)
      rw [if_neg (ne_of_lt h3)]
      exact decide_eq_true h3

theorem key_le_refl (a : JVal) : key_le a a = true := by
  rcases a with _ | p | p | p <;> simp [key_le, str_le, chars_le_refl, le_refl]

theorem key_le_total (a b : JVal) : key_le a b = true ∨ key_le b a = true := by
  rcases a with _ | p | p | p <;> rcases b with _ | q | q | q <;>
    first
      | (left ; rfl)
      | (right ; rfl)
      | exact chars_le_total p.toList q.toList
      | exact (le_total _ _).imp decide_eq_true decide_eq_true

theorem key_le_trans {a b c : JVal} (h1 : key_le a b = true) (h2 : key_le b c = true) :
    key_le a c = true := by
  rcases a with _ | p | p | p <;> rcases b with _ | q | q | q <;> rcases c with _ | u | u | u <;>
    first
      | rfl
      | exact chars_le_trans _ _ _ h1 h2
      | exact decide_eq_true (le_trans (of_decide_eq_true h1) (of_decide_eq_true h2))
      | exact Bool.noConfusion h1
      | exact Bool.noConfusion h2

theorem sorted_sort_by_date (l : List OutRec) : (sort_by_date l).Pairwise rec_le := by
  letI : IsTotal OutRec rec_le := ⟨fun a b => key_le_total a.date b.date⟩
  letI : IsTrans OutRec rec_le := ⟨fun _ _ _ h1 h2 => key_le_trans h1 h2⟩
  exact List.sorted_insertionSort rec_le l

theorem stable_sort_by_date {l c : List OutRec} (hc : c.Sublist l)
    (hr : c.Pairwise (fun x y => x.date = y.date)) : c.Sublist (sort_by_date l) :=
  List.sublist_insertionSort (hr.imp (fun hd => by rw [rec_le, hd]; exact key_le_refl _)) hc

theorem get_put_file (files : List (String × String)) (p c : String) :
    get_file (put_file files p c) p = some c := by
  induction files with
  | nil => simp [put_file, get_file]
  | cons q rest ih =>
    by_cases h : q.1 = p
    · simp [put_file, get_file, h]
    · simp [put_file, get_file, h, ih]

theorem derive_loop_ok {cost income bal : Index} {now : String} :
    ∀ {ts : Index},
    (∀ p ∈ ts, ∀ irec, lookup_idx income p.1 = some irec →
      (income_float (some irec) "evaluation_score").isSome = true ∧
      (income_float (some irec) "actual_payment").isSome = true) →
    ∃ out, derive_loop cost income bal now ts = .ok out := by
  intro ts
  induction ts with
  | nil => exact fun _ => ⟨[], rfl⟩
  | cons p rest ih =>
    intro hcond
    obtain ⟨k, trec⟩ := p
    have hrest := ih (fun q hq => hcond q (List.mem_cons_of_mem _ hq))
    obtain ⟨rs, hrs⟩ := hrest
    rcases hlk : lookup_idx income k with _ | irec
    · exact ⟨rs, by simp only [derive_loop, hlk, hrs]⟩
    · obtain ⟨hse, hsm⟩ := hcond (k, trec) (by simp) irec hlk
      obtain ⟨sc, hsc⟩ := Option.isSome_iff_exists.mp hse
      obtain ⟨mo, hmo⟩ := Option.isSome_iff_exists.mp hsm
      have hdr : derive_record k trec (lookup_idx cost k) (some irec) (lookup_idx bal k) now =
          .ok { task_id := k,
                date := date_of trec (lookup_idx cost k) (some irec),
                attempt := 1,
                work_submitted := true,
                evaluation_score := py_round 4 sc,
                money_earned := py_round 4 mo,
                wall_clock_seconds := compute_wall_clock k (lookup_idx cost k) (lookup_idx bal k),
                timestamp := ts_of (lookup_idx cost k) (some irec) now,
                derived_flag := true } := by
        unfold derive_record
        rw [hsc, hmo]
        rfl
      refine ⟨{ task_id := k,
                date := date_of trec (lookup_idx cost k) (some irec),
                attempt := 1,
                work_submitted := true,
                evaluation_score := py_round 4 sc,
                money_earned := py_round 4 mo,
                wall_clock_seconds := compute_wall_clock k (lookup_idx cost k) (lookup_idx bal k),
                timestamp := ts_of (lookup_idx cost k) (some irec) now,
                derived_flag := true } :: rs, ?_⟩
      simp only [derive_loop, hlk, hdr, hrs]

theorem ts_of_now_indep {c : Option Rec} {irec : Rec} {now1 now2 : String}
    (h : (cost_end_truthy c || truthy (jget irec "timestamp")) = true) :
    ts_of c (some irec) now1 = ts_of c (some irec) now2 := by
  rcases c with _ | cr
  · simp only [cost_end_truthy, Bool.false_or] at h
    simp [ts_of, ts_income, h]
  · simp only [cost_end_truthy, Bool.or_eq_true] at h
    by_cases he : truthy (jget cr "timestamp_end")
    · simp [ts_of, he]
    · rcases h with h | h
      · exact absurd h he
      · simp [ts_of, ts_income, he, h]

theorem derive_record_now_indep {tid : JVal} {t : Rec} {c b : Option Rec} {irec : Rec}
    {now1 now2 : String}
    (h : (cost_end_truthy c || truthy (jget irec "timestamp")) = true) :
    derive_record tid t c (some irec) b now1 = derive_record tid t c (some irec) b now2 := by
  unfold derive_record
  rcases hs : income_float (some irec) "evaluation_score" with _ | sc <;>
    rcases hm : income_float (some irec) "actual_payment" with _ | mo <;>
    simp only []
  rw [ts_of_now_indep h]

theorem derive_loop_now_indep {cost income bal : Index} {now1 now2 : String} :
    ∀ {ts : Index},
    (∀ p ∈ ts, ∀ irec, lookup_idx income p.1 = some irec →
      (cost_end_truthy (lookup_idx cost p.1) || truthy (jget irec "timestamp")) = true) →
    derive_loop cost income bal now1 ts = derive_loop cost income bal now2 ts := by
  intro ts
  induction ts with
  | nil => exact fun _ => rfl
  | cons p rest ih =>
    intro hcond
    obtain ⟨k, trec⟩ := p
    have hrest := ih (fun q hq => hcond q (List.mem_cons_of_mem _ hq))
    rcases hlk : lookup_idx income k with _ | irec
    · simp only [derive_loop, hlk, hrest]
    · have hts := hcond (k, trec) (by simp) irec hlk
      have hdr2 := @derive_record_now_indep k trec (lookup_idx cost k) (lookup_idx bal k)
        irec now1 now2 hts
      simp only [derive_loop, hlk, hrest, hdr2]

theorem load_tasks_from_last (tid : JVal) (recs : List Rec) :
    lookup_idx (load_tasks_from recs) tid = (recs.filter (is_task_for tid)).getLast? := by
  induction recs using List.reverseRecOn with
  | nil => rfl
  | append_singleton l rec ih =>
    have hstep : load_tasks_from (l ++ [rec]) =
        (if truthy (jget rec "task_id") then
          upsert (load_tasks_from l) (jget rec "task_id") rec
        else load_tasks_from l) := by
      unfold load_tasks_from
      rw [List.foldl_append]
      rfl
    rw [hstep, List.filter_append]
    by_cases hp : is_task_for tid rec = true
    · have hparts : truthy (jget rec "task_id") = true ∧ jget rec "task_id" = tid := by
        simpa [is_task_for] using hp
      have heq : jget rec "task_id" = tid := hparts.2
      rw [if_pos hparts.1, heq, lookup_upsert_self]
      have hf : List.filter (is_task_for tid) [rec] = [rec] := by simp [hp]
      rw [hf, List.getLast?_concat]
    · have hp2 : is_task_for tid rec = false := Bool.eq_false_iff.mpr hp
      have hf : List.filter (is_task_for tid) [rec] = [] := by simp [hp2]
      rw [hf, List.append_nil]
      by_cases htr : truthy (jget rec "task_id") = true
      · have hne : ¬ jget rec "task_id" = tid := by
          intro hh
          have htr2 : truthy tid = true := hh ▸ htr
          exact hp (by simp [is_task_for, htr2, hh])
        rw [if_pos htr, lookup_upsert_ne _ _ hne]
        exact ih
      · rw [if_neg htr]
        exact ih

theorem load_balance_from_last (tid : JVal) (recs : List Rec) :
    lookup_idx (load_balance_from recs) tid = (recs.filter (is_balance_for tid)).getLast? := by
  induction recs using List.reverseRecOn with
  | nil => rfl
  | append_singleton l rec ih =>
    have hstep : load_balance_from (l ++ [rec]) =
        (if truthy (jget rec "task_id") && !(jget rec "date" = JVal.str "initialization") then
          upsert (load_balance_from l) (jget rec "task_id") rec
        else load_balance_from l) := by
      unfold load_balance_from
      rw [List.foldl_append]
      rfl
    rw [hstep, List.filter_append]
    by_cases hcond : (truthy (jget rec "task_id") &&
        !(jget rec "date" = JVal.str "initialization")) = true
    · obtain ⟨h1, h2⟩ : truthy (jget rec "task_id") = true ∧
          (!(jget rec "date" = JVal.str "initialization")) = true := by
        simpa using hcond
      rw [if_pos hcond]
      by_cases heq : jget rec "task_id" = tid
      · have hp : is_balance_for tid rec = true := by
          have h1b : truthy tid = true := heq ▸ h1
          simp [is_balance_for, h1, h1b, heq, h2]
        rw [heq, lookup_upsert_self]
        have hf : List.filter (is_balance_for tid) [rec] = [rec] := by simp [hp]
        rw [hf, List.getLast?_concat]
      · have hp : is_balance_for tid rec = false := by
          simp [is_balance_for, heq]
        have hf : List.filter (is_balance_for tid) [rec] = [] := by simp [hp]
        rw [hf, List.append_nil, lookup_upsert_ne _ _ heq]
        exact ih
    · rw [if_neg hcond]
      have hp : is_balance_for tid rec = false := by
        refine Bool.eq_false_iff.mpr fun hh => hcond ?_
        obtain ⟨⟨hh1, _⟩, hh2⟩ : (truthy (jget rec "task_id") = true ∧
            jget rec "task_id" = tid) ∧
            ¬jget rec "date" = JVal.str "initialization" := by
          simpa [is_balance_for] using hh
        simp [hh1, hh2]
      have hf : List.filter (is_balance_for tid) [rec] = [] := by simp [hp]
      rw [hf, List.append_nil]
      exact ih

theorem load_token_costs_from_last (tid : JVal) (recs : List Rec) :
    lookup_idx (load_token_costs_from recs).1 tid =
      (recs.filter (is_cost_for tid)).getLast? ∧
    lookup_idx (load_token_costs_from recs).2 tid =
      (recs.filter (is_income_for tid)).getLast? := by
  induction recs using List.reverseRecOn with
  | nil => exact ⟨rfl, rfl⟩
  | append_singleton l rec ih =>
    obtain ⟨ih1, ih2⟩ := ih
    have hstep : load_token_costs_from (l ++ [rec]) =
        (if !truthy (jget rec "task_id") then load_token_costs_from l
         else if jget rec "type" = JVal.str "work_income" then
           ((load_token_costs_from l).1,
            upsert (load_token_costs_from l).2 (jget rec "task_id") rec)
         else if (rget rec "timestamp_start").isSome && (rget rec "timestamp_end").isSome then
           (upsert (load_token_costs_from l).1 (jget rec "task_id") rec,
            (load_token_costs_from l).2)
         else load_token_costs_from l) := by
      unfold load_token_costs_from
      rw [List.foldl_append]
      rfl
    rw [hstep, List.filter_append, List.filter_append]
    by_cases htr : truthy (jget rec "task_id") = true
    · rw [if_neg (by simp [htr])]
      by_cases hty : jget rec "type" = JVal.str "work_income"
      · rw [if_pos hty]
        have hcf : is_cost_for tid rec = false := by simp [is_cost_for, hty]
        have hfc : List.filter (is_cost_for tid) [rec] = [] := by simp [hcf]
        rw [hfc, List.append_nil]
        by_cases heq : jget rec "task_id" = tid
        · have htr2 : truthy tid = true := heq ▸ htr
          have hif : is_income_for tid rec = true := by
            simp [is_income_for, htr, htr2, heq, hty]
          have hfi : List.filter (is_income_for tid) [rec] = [rec] := by simp [hif]
          rw [hfi, List.getLast?_concat]
          exact ⟨ih1, by rw [show ((load_token_costs_from l).1,
            upsert (load_token_costs_from l).2 (jget rec "task_id") rec).2 =
            upsert (load_token_costs_from l).2 (jget rec "task_id") rec from rfl,
            heq, lookup_upsert_self]⟩
        · have hif : is_income_for tid rec = false := by simp [is_income_for, heq]
          have hfi : List.filter (is_income_for tid) [rec] = [] := by simp [hif]
          rw [hfi, List.append_nil]
          exact ⟨ih1, by rw [show ((load_token_costs_from l).1,
            upsert (load_token_costs_from l).2 (jget rec "task_id") rec).2 =
            upsert (load_token_costs_from l).2 (jget rec "task_id") rec from rfl,
            lookup_upsert_ne _ _ heq]; exact ih2⟩
      · rw [if_neg hty]
        have hif : is_income_for tid rec = false := by simp [is_income_for, hty]
        have hfi : List.filter (is_income_for tid) [rec] = [] := by simp [hif]
        rw [hfi, List.append_nil]
        by_cases hts : ((rget rec "timestamp_start").isSome &&
            (rget rec "timestamp_end").isSome) = true
        · obtain ⟨hts1, hts2⟩ : (rget rec "timestamp_start").isSome = true ∧
              (rget rec "timestamp_end").isSome = true := by simpa using hts
          rw [if_pos hts]
          by_cases heq : jget rec "task_id" = tid
          · have htr2 : truthy tid = true := heq ▸ htr
            have hcf : is_cost_for tid rec = true := by
              simp [is_cost_for, htr, htr2, heq, hty, hts1, hts2]
            have hfc : List.filter (is_cost_for tid) [rec] = [rec] := by simp [hcf]
            rw [hfc, List.getLast?_concat]
            exact ⟨by rw [show (upsert (load_token_costs_from l).1 (jget rec "task_id") rec,
              (load_token_costs_from l).2).1 =
              upsert (load_token_costs_from l).1 (jget rec "task_id") rec from rfl,
              heq, lookup_upsert_self], ih2⟩
          · have hcf : is_cost_for tid rec = false := by simp [is_cost_for, heq]
            have hfc : List.filter (is_cost_for tid) [rec] = [] := by simp [hcf]
            rw [hfc, List.append_nil]
            exact ⟨by rw [show (upsert (load_token_costs_from l).1 (jget rec "task_id") rec,
              (load_token_costs_from l).2).1 =
              upsert (load_token_costs_from l).1 (jget rec "task_id") rec from rfl,
              lookup_upsert_ne _ _ heq]; exact ih1, ih2⟩
        · rw [if_neg hts]
          have hcf : is_cost_for tid rec = false := by
            refine Bool.eq_false_iff.mpr fun hh => hts ?_
            obtain ⟨⟨⟨_, _⟩, hh1⟩, hh2⟩ : (((truthy (jget rec "task_id") = true ∧
                jget rec "task_id" = tid) ∧
                ¬jget rec "type" = JVal.str "work_income") ∧
                (rget rec "timestamp_start").isSome = true) ∧
                (rget rec "timestamp_end").isSome = true := by
              simpa [is_cost_for] using hh
            simp [hh1, hh2]
          have hfc : List.filter (is_cost_for tid) [rec] = [] := by simp [hcf]
          rw [hfc, List.append_nil]
          exact ⟨ih1, ih2⟩
    · have htrf : truthy (jget rec "task_id") = false := Bool.eq_false_iff.mpr htr
      rw [if_pos (by simp [htrf])]
      have hcf : is_cost_for tid rec = false := by simp [is_cost_for, htrf]
      have hif : is_income_for tid rec = false := by simp [is_income_for, htrf]
      have hfc : List.filter (is_cost_for tid) [rec] = [] := by simp [hcf]
      have hfi : List.filter (is_income_for tid) [rec] = [] := by simp [hif]
      rw [hfc, hfi, List.append_nil, List.append_nil]
      exact ⟨ih1, ih2⟩

/-!
### Claims
-/

/-- C7: for each of the three source files, an absent underlying file makes
the corresponding indexer return an empty index (an empty mapping, or a pair
of empty mappings for token costs) rather than failing. -/
theorem c7_missing_file_empty_index :
    load_tasks none = [] ∧ load_token_costs none = ([], []) ∧ load_balance none = [] :=
  ⟨rfl, rfl, rfl⟩

/-- C2 counterexample: `compute_wall_clock` can return a negative non-null
value — a balance record with `task_completion_time_seconds = -5` yields
`some (-5)`, so not every non-null result is non-negative as the claim
states. -/
theorem c2_counterexample :
    compute_wall_clock (JVal.str "N") none (some bal_neg) = some (-5) ∧ ¬((0 : ℚ) ≤ -5) := by
  constructor
  · decide
  · decide

/-- C2 (amended): `compute_wall_clock` returns the first successfully
computed value of the ordered fallback — the cost-timestamp difference
rounded to 2 places when both fields are truthy, parse, and the difference
is non-negative, else the balance record's convertible completion time
rounded to 2 places used as-is (with no sign check, so it may be negative),
else null.  Only the cost branch guarantees non-negativity. -/
theorem c2_wall_clock_fallback (tid : JVal) (c b : Option Rec) :
    compute_wall_clock tid c b = wall_clock_spec c b := by
  rcases c with _ | cr
  · rfl
  · unfold compute_wall_clock wall_clock_spec cost_candidate
    by_cases ht : (truthy (jget cr "timestamp_start") && truthy (jget cr "timestamp_end")) = true
    · simp only [ht, if_true]
      rcases hpa : parse_ts (jget cr "timestamp_start") with _ | a <;>
        rcases hpe : parse_ts (jget cr "timestamp_end") with _ | e
      · rfl
      · rfl
      · rfl
      · dsimp only
        by_cases h0 : (0 : ℤ) ≤ e - a
        · rw [if_pos h0, if_pos h0]
        · rw [if_neg h0, if_neg h0]
          rfl
    · simp only [Bool.not_eq_true] at ht
      simp only [ht, Bool.false_eq_true, if_false]
      rfl

/-- C3 counterexample: a task record whose date is present and non-null but
empty (`""`) is skipped by the Python `or` chain, and the cost record's date
is used instead — `first non-null/non-missing wins` does not hold as
stated. -/
theorem c3_counterexample :
    rget t_empty_date "date" = some (JVal.str "") ∧ JVal.str "" ≠ JVal.null ∧
    date_of t_empty_date (some c_dated) none = JVal.str "2024-05-05" ∧
    JVal.str "2024-05-05" ≠ JVal.str "" := by
  refine ⟨by decide, by decide, by decide, by decide⟩

/-- C3 (amended): the date field is the first truthy candidate — non-missing,
non-null, and non-empty (more generally Python-truthy) — in the order task
date, cost date, income date, else the empty string. -/
theorem c3_date_first_truthy (t : Rec) (c i : Option Rec) :
    date_of t c i = date_spec t c i := by
  unfold date_of date_spec first_truthy py_or
  rfl

/-- C1 counterexample: an income record for task "T" exists in the
cost/income source, yet no derived completion record for "T" appears in the
output, because "T" has no entry in the task index — the unrestricted "iff"
of the claim fails. -/
theorem c1_counterexample :
    derive_task_completions (some [task_A]) (some [income_T_new]) none "NOW" true fs0 =
      .ok ([], fs0) ∧
    (lookup_idx (load_token_costs (some [income_T_new])).2 (JVal.str "T")).isSome = true ∧
    ¬ ∃ r ∈ ([] : List OutRec), r.task_id = JVal.str "T" := by
  refine ⟨by rfl, by decide, ?_⟩
  rintro ⟨r, hr, _⟩
  cases hr

/-- C1 (amended): a derived completion record for task identifier T appears
in the derivation's output if and only if T is present in the task index and
an income record for T exists in the cost/income source's income index. -/
theorem c1_record_iff_task_and_income {tf kf bf : Option (List Rec)} {now : String}
    {dr : Bool} {fs : FS} {out : List OutRec} {fs2 : FS} (tid : JVal)
    (h : derive_task_completions tf kf bf now dr fs = .ok (out, fs2)) :
    (∃ r ∈ out, r.task_id = tid) ↔
      ((lookup_idx (load_tasks tf) tid).isSome = true ∧
       (lookup_idx (load_token_costs kf).2 tid).isSome = true) := by
  obtain ⟨du, hdu, rfl⟩ := run_ok_shape h
  unfold derive_unsorted at hdu
  have hm := mem_ok_derive_loop hdu tid
  constructor
  · rintro ⟨r, hr, hrt⟩
    obtain ⟨hp, hs⟩ := hm.mp ⟨r, mem_sort_by_date.mp hr, hrt⟩
    exact ⟨(lookup_isSome_iff _ _).mpr hp, hs⟩
  · rintro ⟨hp, hs⟩
    obtain ⟨r, hr, hrt⟩ := hm.mpr ⟨(lookup_isSome_iff _ _).mp hp, hs⟩
    exact ⟨r, mem_sort_by_date.mpr hr, hrt⟩

/-- Witness for C1 (amended) at a concrete input: task "C" is in the task
index but has no income record, and indeed no record for "C" is derived. -/
theorem c1_witness :
    (∃ r ∈ ([] : List OutRec), r.task_id = JVal.str "C") ↔
      ((lookup_idx (load_tasks (some [task_C])) (JVal.str "C")).isSome = true ∧
       (lookup_idx (load_token_costs none).2 (JVal.str "C")).isSome = true) :=
  @c1_record_iff_task_and_income (some [task_C]) none none "NOW" true fs0 [] fs0
    (JVal.str "C") (by rfl)

/-- C10: a task identifier with an income record but no entry in the task
index produces no derived completion record — the task index drives the
derivation. -/
theorem c10_task_index_drives {tf kf bf : Option (List Rec)} {now : String}
    {dr : Bool} {fs : FS} {out : List OutRec} {fs2 : FS} (tid : JVal)
    (h : derive_task_completions tf kf bf now dr fs = .ok (out, fs2))
    (hincome : (lookup_idx (load_token_costs kf).2 tid).isSome = true)
    (hno : lookup_idx (load_tasks tf) tid = none) :
    ¬ ∃ r ∈ out, r.task_id = tid := by
  rintro ⟨r, hr, hrt⟩
  obtain ⟨du, hdu, rfl⟩ := run_ok_shape h
  unfold derive_unsorted at hdu
  obtain ⟨hp, _⟩ := (mem_ok_derive_loop hdu tid).mp ⟨r, mem_sort_by_date.mp hr, hrt⟩
  have hsome := (lookup_isSome_iff _ _).mpr hp
  rw [hno] at hsome
  exact Bool.noConfusion hsome

/-- Witness for C10 at a concrete input: income exists for "D", "D" is not in
the task index, and the output contains no record for "D". -/
theorem c10_witness : ¬ ∃ r ∈ ([] : List OutRec), r.task_id = JVal.str "D" :=
  @c10_task_index_drives (some [task_A]) (some [income_D]) none "NOW" true fs0 [] fs0
    (JVal.str "D") (by rfl) (by decide) (by rfl)

/-- C4: last-write-wins duplicate resolution.  For every source stream and
every task identifier, each per-source index — task, cost, income, balance —
retains exactly the last record of the file (in file order, wherever the
duplicates sit) that qualifies for that index under that identifier, and
nothing when none qualifies; so with two income records for the same
identifier and different scores, the later one is the retained record, and a
derived record built from the retained income record carries its rounded
evaluation score. -/
theorem c4_last_write_wins :
    (∀ (recs : List Rec) (tid : JVal),
      lookup_idx (load_tasks_from recs) tid = (recs.filter (is_task_for tid)).getLast? ∧
      lookup_idx (load_token_costs_from recs).1 tid =
        (recs.filter (is_cost_for tid)).getLast? ∧
      lookup_idx (load_token_costs_from recs).2 tid =
        (recs.filter (is_income_for tid)).getLast? ∧
      lookup_idx (load_balance_from recs) tid = (recs.filter (is_balance_for tid)).getLast?)
    ∧ (∀ (tid : JVal) (trec : Rec) (c b : Option Rec) (irec : Rec) (now : String)
        (r : OutRec) (sc : ℚ), derive_record tid trec c (some irec) b now = .ok r →
        income_float (some irec) "evaluation_score" = some sc →
        r.evaluation_score = py_round 4 sc) := by
  constructor
  · intro recs tid
    exact ⟨load_tasks_from_last tid recs, (load_token_costs_from_last tid recs).1,
      (load_token_costs_from_last tid recs).2, load_balance_from_last tid recs⟩
  · intro tid trec c b irec now r sc h hsc
    exact derive_record_ok_score h hsc

/-- Witness for C4 at concrete inputs: of two income records for task "T"
sitting in the middle of the file (a cost record follows them), the later one
is the retained record of the income index, and the derived record carries
its score. -/
theorem c4_witness :
    lookup_idx (load_token_costs_from [income_T_old, income_T_new, cost_A]).2 (JVal.str "T") =
      some income_T_new
    ∧ outrec_T.evaluation_score = py_round 4 (3 / 4) :=
  ⟨((c4_last_write_wins.1 [income_T_old, income_T_new, cost_A] (JVal.str "T")).2.2.1).trans
      (by rfl),
   c4_last_write_wins.2 (JVal.str "T") task_T none none income_T_new "NOW" outrec_T (3 / 4)
      (by rfl) (by rfl)⟩

/-- C5: the derived set is sorted by date with a stable sort — when every
derived date is a string (the normal case), the output is non-decreasing by
date, and any equal-date subsequence of the unsorted derived list survives as
a subsequence of the output, so ties keep their task-index relative order. -/
theorem c5_sorted_stable {tf kf bf : Option (List Rec)} {now : String} {dr : Bool}
    {fs : FS} {out : List OutRec} {fs2 : FS}
    (h : derive_task_completions tf kf bf now dr fs = .ok (out, fs2))
    (hstr : ∀ r ∈ out, ∃ s, r.date = JVal.str s) :
    out.Pairwise (fun a b => str_le (date_str a) (date_str b) = true) ∧
    (∀ du, derive_unsorted tf kf bf now = .ok du →
      ∀ c : List OutRec, c.Sublist du → c.Pairwise (fun x y => x.date = y.date) →
        c.Sublist out) := by
  obtain ⟨du, hdu, rfl⟩ := run_ok_shape h
  constructor
  · have hp := sorted_sort_by_date du
    refine hp.imp_of_mem ?_
    intro a b ha hb hab
    obtain ⟨s, hs⟩ := hstr a ha
    obtain ⟨t, ht2⟩ := hstr b hb
    have hk : key_le a.date b.date = true := hab
    rw [hs, ht2] at hk
    simp only [date_str, hs, ht2]
    exact hk
  · intro du2 hdu2 c hc hcp
    rw [hdu] at hdu2
    obtain rfl : du = du2 := Except.ok.inj hdu2
    exact stable_sort_by_date hc hcp

/-- Witness for C5 at the three-source fixture: the output is sorted
non-decreasing by date, and equal-date subsequences of the unsorted derived
list are preserved. -/
theorem c5_witness :
    ([outrec_B, outrec_A] : List OutRec).Pairwise
      (fun a b => str_le (date_str a) (date_str b) = true) ∧
    (∀ du, derive_unsorted F1tasks F1costs F1bal "NOW" = .ok du →
      ∀ c : List OutRec, c.Sublist du → c.Pairwise (fun x y => x.date = y.date) →
        c.Sublist [outrec_B, outrec_A]) :=
  @c5_sorted_stable F1tasks F1costs F1bal "NOW" true fs0 [outrec_B, outrec_A] fs0
    (by rfl)
    (by
      intro r hr
      rcases List.mem_cons.mp hr with rfl | hr2
      · exact ⟨"2024-01-01", rfl⟩
      rcases List.mem_cons.mp hr2 with rfl | hr3
      · exact ⟨"2024-01-02", rfl⟩
      cases hr3)

/-- C6 counterexample: an income record whose `evaluation_score` is present
but null makes `float(None)` raise inside `derive_record`; the run does not
complete, contradicting "never raises on any income record contents". -/
theorem c6_counterexample :
    derive_task_completions (some [task_A]) (some [income_bad]) none "NOW" true fs0 =
      .error "float() raised on an income record field" := by rfl

/-- A second divergence behind C6: while every income record's score and
payment fields convert to float, mixed-type date keys (a string date and a
numeric date) make `derived.sort` raise an uncaught `TypeError` at line 262,
so the run still aborts. -/
theorem mixed_date_sort_raises :
    derive_task_completions (some [task_A, task_numdate]) (some [income_A, income_M]) none
      "NOW" true fs0 = .error "TypeError: mixed date types in sort" := by rfl

/-- C6 (amended): the run completes (and would exit zero) provided (a) every
income record consulted for a task in the task index has `evaluation_score`
and `actual_payment` fields that are absent or convertible to float, and
(b) the derived records' date keys are mutually orderable (e.g. all strings);
a present-but-null or non-numeric score/payment value raises inside
`derive_record`, and mixed-type date keys make `derived.sort` raise, instead
of degrading. -/
theorem c6_graceful_completion {tf kf bf : Option (List Rec)} {now : String}
    {dr : Bool} {fs : FS}
    (hfl : ∀ p ∈ load_tasks tf, ∀ irec, lookup_idx (load_token_costs kf).2 p.1 = some irec →
      (income_float (some irec) "evaluation_score").isSome = true ∧
      (income_float (some irec) "actual_payment").isSome = true)
    (hcmp : ∀ du, derive_unsorted tf kf bf now = .ok du → keys_comparable du = true) :
    ∃ res, derive_task_completions tf kf bf now dr fs = .ok res := by
  by_cases he : (load_tasks tf).isEmpty
  · exact ⟨([], fs), by unfold derive_task_completions; rw [if_pos he]⟩
  · obtain ⟨du, hdu⟩ := derive_loop_ok hfl
    have hdu2 : derive_unsorted tf kf bf now = .ok du := hdu
    have hc := hcmp du hdu2
    rcases dr with _ | _
    · refine ⟨(sort_by_date du, write_output fs (sort_by_date du)), ?_⟩
      unfold derive_task_completions
      rw [if_neg he]
      simp only [hdu2]
      rw [if_pos hc, if_neg (by simp)]
    · refine ⟨(sort_by_date du, fs), ?_⟩
      unfold derive_task_completions
      rw [if_neg he]
      simp only [hdu2]
      rw [if_pos hc, if_pos trivial]

/-- Witness for C6 (amended) at a concrete input with convertible fields and
string dates. -/
theorem c6_witness :
    ∃ res, derive_task_completions (some [task_A]) (some [income_A]) none "NOW" true fs0 =
      .ok res :=
  @c6_graceful_completion (some [task_A]) (some [income_A]) none "NOW" true fs0
    (by
      intro p hp irec hirec
      rw [show load_tasks (some [task_A]) = [(JVal.str "A", task_A)] from rfl] at hp
      rcases List.mem_cons.mp hp with rfl | hp2
      · obtain rfl := Option.some.inj (show some income_A = some irec from hirec)
        decide
      · cases hp2)
    (by
      intro du hdu
      obtain rfl := Except.ok.inj (show Except.ok [outrec_A_nocost] = Except.ok du from hdu)
      rfl)

/-- C8 counterexample: in write mode with an empty task index the run returns
early — the destination directory is not created and a stale output file is
left untouched rather than being overwritten with the (empty) derived set. -/
theorem c8_counterexample :
    derive_task_completions none none none "NOW" false fs_stale = .ok ([], fs_stale) ∧
    get_file fs_stale.files out_path = some "stale" ∧
    ("stale" : String) ≠ serialize_lines [] ∧
    out_dir ∉ fs_stale.dirs := by
  refine ⟨by rfl, by rfl, by decide, by decide⟩

/-- C8 (amended): in write mode, provided the loaded task index is non-empty,
a successful run creates the destination directory and overwrites the output
path with exactly the serialization of the full sorted derived set, one
record per line, regardless of any previous content — including when the
derived set is empty.  (With an empty task index the run returns early and
writes nothing.) -/
theorem c8_write_overwrites {tf kf bf : Option (List Rec)} {now : String} {fs : FS}
    {out : List OutRec} {fs2 : FS}
    (hne : (load_tasks tf).isEmpty = false)
    (h : derive_task_completions tf kf bf now false fs = .ok (out, fs2)) :
    out_dir ∈ fs2.dirs ∧ get_file fs2.files out_path = some (serialize_lines out) := by
  unfold derive_task_completions at h
  rw [if_neg (by simp [hne])] at h
  rcases hu : derive_unsorted tf kf bf now with e | du <;> simp only [hu] at h
  · exact absurd h (by simp)
  · by_cases hcmp : keys_comparable du = true
    swap
    · rw [if_neg hcmp] at h
      exact absurd h (by simp)
    rw [if_pos hcmp, if_neg (by simp)] at h
    have hinj := Except.ok.inj h
    obtain rfl : sort_by_date du = out := congrArg Prod.fst hinj
    obtain rfl : write_output fs (sort_by_date du) = fs2 := congrArg Prod.snd hinj
    constructor
    · unfold write_output
      by_cases hd : out_dir ∈ fs.dirs
      · simpa [hd]
      · simp [hd]
    · exact get_put_file _ _ _

/-- Witness for C8 (amended): task "C" has no income record, so the derived
set is empty; the run still creates the directory and overwrites the stale
file with the empty serialization. -/
theorem c8_witness :
    out_dir ∈ (FS.mk [out_dir] [(out_path, "")]).dirs ∧
    get_file (FS.mk [out_dir] [(out_path, "")]).files out_path =
      some (serialize_lines []) :=
  @c8_write_overwrites (some [task_C]) none none "NOW" fs_stale []
    (FS.mk [out_dir] [(out_path, "")]) (by rfl) (by rfl)

/-- C9: the derivation is deterministic in its inputs — under the
precondition that every derived record draws its timestamp from a cost
record's end timestamp or an income record's timestamp (so the current-time
fallback never triggers), two runs at different current times produce
identical results, including the written file. -/
theorem c9_deterministic {tf kf bf : Option (List Rec)} {dr : Bool} {fs : FS}
    (hts : ∀ p ∈ load_tasks tf, ∀ irec, lookup_idx (load_token_costs kf).2 p.1 = some irec →
      (cost_end_truthy (lookup_idx (load_token_costs kf).1 p.1) ||
        truthy (jget irec "timestamp")) = true) :
    ∀ now1 now2, derive_task_completions tf kf bf now1 dr fs =
      derive_task_completions tf kf bf now2 dr fs := by
  intro now1 now2
  have hD : derive_unsorted tf kf bf now1 = derive_unsorted tf kf bf now2 :=
    derive_loop_now_indep hts
  unfold derive_task_completions
  rw [hD]

/-- Witness for C9 at the three-source fixture, where every income record has
a truthy timestamp: two runs at different current times coincide. -/
theorem c9_witness :
    derive_task_completions F1tasks F1costs F1bal "NOW-ONE" true fs0 =
      derive_task_completions F1tasks F1costs F1bal "NOW-TWO" true fs0 :=
  @c9_deterministic F1tasks F1costs F1bal true fs0
    (by
      intro p hp irec hirec
      rw [show load_tasks F1tasks =
        [(JVal.str "A", task_A), (JVal.str "B", task_B), (JVal.str "C", task_C)] from rfl] at hp
      rcases List.mem_cons.mp hp with rfl | hp2
      · obtain rfl := Option.some.inj (show some income_A = some irec from hirec)
        decide
      rcases List.mem_cons.mp hp2 with rfl | hp3
      · obtain rfl := Option.some.inj (show some income_B = some irec from hirec)
        decide
      rcases List.mem_cons.mp hp3 with rfl | hp4
      · exact Option.noConfusion (show (none : Option Rec) = some irec from hirec)
      · cases hp4)
    "NOW-ONE" "NOW-TWO"
